import Mathlib

/-!
# urlshort: redirect-or-fallback dispatch over a path map

A shallow embedding of `students/myang/urlshort/handler.go`.

* A Go `map[string]string` is a `GoMap`: a finite list of bindings with the two
  operations the program uses, the comma-ok index `v, ok := m[k]` and the
  assignment `m[k] = v`.
* The body of the function literal returned by `MapHandler` does nothing but
  call collaborators that live outside the package (`http.Redirect`, the
  builtin `print`, `fallback.ServeHTTP`).  Its meaning is therefore the ordered
  list of those calls, each with the actual arguments (`Call`), together with
  the closure as it stands after the request.
* `yaml.Unmarshal` and `json.Unmarshal` belong to external libraries; they are
  parameters of `parseYAML` / `parseJSON`.
* What `http.Redirect` writes for a given target is fixed by the Go standard
  library: `redirectLocation` follows `net/http.Redirect` (with `url.Parse`,
  `path.Split`, `path.Clean` and `hexEscapeNonASCII`) to the `Location` header
  it sets.  Go strings are taken to be valid UTF-8.
-/

namespace Urlshort

/-! ## Data model -/

/-- Go `map[string]string`.  The bindings are kept most recent first; `assign`
keeps the keys pairwise distinct.  The nil map and the empty map read alike and
are both `⟨[]⟩`. -/
structure GoMap where
  bindings : List (String × String)
deriving DecidableEq, Repr

namespace GoMap

/-- The value `make(map[string]string)`. -/
def make : GoMap := ⟨[]⟩

/-- The comma-ok index expression `v, ok := m[k]`: the stored value and `true`,
or the zero value `""` and `false` when `k` is not a key. -/
def index (m : GoMap) (k : String) : String × Bool :=
  match m.bindings.lookup k with
  | some v => (v, true)
  | none => ("", false)

/-- The assignment `m[k] = v`: inserts the binding, replacing the one `k` had. -/
def assign (m : GoMap) (k v : String) : GoMap :=
  ⟨(k, v) :: m.bindings.filter (fun b => b.1 != k)⟩

/-- Lookup as an optional value: `some v` when `m[k]` is present with value `v`. -/
def get? (m : GoMap) (k : String) : Option String :=
  match m.index k with
  | (v, true) => some v
  | (_, false) => none

end GoMap

/-- The struct `RedirectionMap` of the source: one (path, url) entry. -/
structure RedirectionMap where
  Path : String
  Url : String
deriving DecidableEq, Repr

/-- The part of `url.URL` a request carries. -/
structure URL where
  Path : String
  RawQuery : String
deriving DecidableEq, Repr

/-- A request as net/http delivers it to a handler (neither the `*http.Request`
nor its `URL` is nil), with the fields that tell requests apart. -/
structure Request where
  Method : String
  URL : URL
  Header : List (String × List String)
  Host : String
deriving DecidableEq, Repr

/-- An `http.ResponseWriter` value (the response sink), identified by a handle.
The handler never calls a method on it; it only passes it on. -/
structure ResponseWriter where
  id : Nat
deriving DecidableEq, Repr

/-- A caller-supplied (non-nil) `http.Handler`, identified by a handle. -/
structure Handler where
  id : Nat
deriving DecidableEq, Repr

/-- The constant `http.StatusPermanentRedirect`. -/
def StatusPermanentRedirect : Nat := 308

/-- The calls the handler body makes on its collaborators. -/
inductive Call where
  /-- The call `http.Redirect(w, r, url, code)`: net/http replies on `w` with
  status `code` and a redirect to `url`, which may be relative to the path of
  `r`. -/
  | Redirect (w : ResponseWriter) (r : Request) (url : String) (code : Nat)
  /-- The builtin `print(s)`, which writes `s` to standard error. -/
  | print (s : String)
  /-- The call `h.ServeHTTP(w, r)` on a caller-supplied handler. -/
  | ServeHTTP (h : Handler) (w : ResponseWriter) (r : Request)
deriving DecidableEq, Repr

/-- The closure value returned by `MapHandler`: the function literal together
with the two variables it captures. -/
structure HandlerFunc where
  pathsToUrls : GoMap
  fallback : Handler
deriving DecidableEq, Repr

/-- Result of running the handler once: the calls made, in order, and the
closure afterwards. -/
structure Served where
  calls : List Call
  closure : HandlerFunc
deriving DecidableEq, Repr

/-! ## The program -/

/-- The function `MapHandler` of the source: returns the closure over
`pathsToUrls` and `fallback`. -/
def MapHandler (pathsToUrls : GoMap) (fallback : Handler) : HandlerFunc :=
  ⟨pathsToUrls, fallback⟩

/-- The body of the function literal in `MapHandler`, run on `(writer, reader)`. -/
def HandlerFunc.ServeHTTP (h : HandlerFunc) (writer : ResponseWriter) (reader : Request) :
    Served :=
  match h.pathsToUrls.index reader.URL.Path with
  | (path, true) => ⟨[Call.Redirect writer reader path StatusPermanentRedirect], h⟩
  | (_, false) =>
    ⟨[Call.print "Using fallback handler...", Call.ServeHTTP h.fallback writer reader], h⟩

/-- The function `buildMap` of the source. -/
def buildMap (parsedYAML : List RedirectionMap) : GoMap :=
  parsedYAML.foldl (fun m entry => m.assign entry.Path entry.Url) GoMap.make

/-- A Go `error` value that is not nil, carrying the diagnostic. -/
structure Error where
  msg : String
deriving DecidableEq, Repr

/-- What `Unmarshal(data, &t)` does to a nil `t []RedirectionMap`: the value
left in `t` and the returned error (`none` is nil). -/
abbrev Unmarshal := List UInt8 → List RedirectionMap × Option Error

/-- The function `parseYAML` of the source, over `yaml.Unmarshal`. -/
def parseYAML (yamlUnmarshal : Unmarshal) (data : List UInt8) :
    List RedirectionMap × Option Error :=
  let (t, err) := yamlUnmarshal data
  (t, err)

/-- The function `parseJSON` of the source, over `json.Unmarshal`. -/
def parseJSON (jsonUnmarshal : Unmarshal) (data : List UInt8) :
    List RedirectionMap × Option Error :=
  let (t, err) := jsonUnmarshal data
  (t, err)

/-- The function `YAMLHandler` of the source; a nil handler is `none`. -/
def YAMLHandler (yamlUnmarshal : Unmarshal) (yaml : List UInt8) (fallback : Handler) :
    Option HandlerFunc × Option Error :=
  match parseYAML yamlUnmarshal yaml with
  | (_, some err) => (none, some err)
  | (parsedYaml, none) => (some (MapHandler (buildMap parsedYaml) fallback), none)

/-- The function `JSONHandler` of the source; a nil handler is `none`. -/
def JSONHandler (jsonUnmarshal : Unmarshal) (data : List UInt8) (fallback : Handler) :
    Option HandlerFunc × Option Error :=
  match parseJSON jsonUnmarshal data with
  | (_, some err) => (none, some err)
  | (parsedJSON, none) => (some (MapHandler (buildMap parsedJSON) fallback), none)

/-- Runs the handler on a sequence of requests, one after the other, each on the
closure the previous one left; returns all calls in order and the last closure. -/
def serveAll (h : HandlerFunc) : List (ResponseWriter × Request) → Served
  | [] => ⟨[], h⟩
  | (w, r) :: rest =>
    let s := h.ServeHTTP w r
    let t := serveAll s.closure rest
    ⟨s.calls ++ t.calls, t.closure⟩

/-! ## The Go standard library behind `http.Redirect`

`http.Redirect(w, r, url, code)` parses `url`; when it parses without error and
has neither scheme nor host, the target is made absolute against the directory
of `r.URL.Path` and cleaned with `path.Clean` (keeping a trailing slash and the
query).  The result, with every non-ASCII byte percent-escaped, is set as the
`Location` header, and `code` is written as the status. -/

/-- The function `stringContainsCTLByte` of net/url: some byte is below 0x20 or
is 0x7f. -/
def stringContainsCTLByte (s : List Char) : Bool :=
  s.any (fun c => c.toNat < 32 || c.toNat == 127)

/-- The loop of `getScheme` of net/url at index `i`, with the bytes from `i` on. -/
def getSchemeFrom (rawURL : List Char) : Nat → List Char → Option (List Char × List Char)
  | _, [] => some ([], rawURL)
  | i, c :: cs =>
    if c.isAlpha then getSchemeFrom rawURL (i + 1) cs
    else if c.isDigit || c = '+' || c = '-' || c = '.' then
      if i = 0 then some ([], rawURL) else getSchemeFrom rawURL (i + 1) cs
    else if c = ':' then
      if i = 0 then none else some (rawURL.take i, cs)
    else some ([], rawURL)

/-- The function `getScheme` of net/url: the scheme (empty when there is none)
and the rest, or `none` for the error "missing protocol scheme". -/
def getScheme (rawURL : List Char) : Option (List Char × List Char) :=
  getSchemeFrom rawURL 0 rawURL

/-- The function `ishex` of net/url. -/
def ishex (c : Char) : Bool :=
  c.isDigit || ('a' ≤ c && c ≤ 'f') || ('A' ≤ c && c ≤ 'F')

/-- Whether `unescape` of net/url succeeds in the path, fragment and
user-password modes: every `%` is followed by two hex digits. -/
def validEscapes : List Char → Bool
  | [] => true
  | '%' :: a :: b :: rest => ishex a && ishex b && validEscapes rest
  | '%' :: _ => false
  | _ :: rest => validEscapes rest

/-- The function `validUserinfo` of net/url. -/
def validUserinfo (s : List Char) : Bool :=
  s.all (fun r => r.isAlpha || r.isDigit || "-._:~!$&\x27()*+,;=%@".toList.contains r)

/-- The function `strings.LastIndex` for a one-byte separator; `none` is -1. -/
def lastIndexOf (c : Char) (s : List Char) : Option Nat :=
  match s.reverse.indexOf? c with
  | some k => some (s.length - 1 - k)
  | none => none

/-- Whether `parseAuthority` of net/url succeeds with an empty host.  The host is
what follows the last `@`; `parseHost` returns the empty host unchanged, and for
a host that is not empty it returns an error or a host that is not empty.  The
userinfo must pass `validUserinfo` and unescape, name and password apart. -/
def authorityHasNoHost (authority : List Char) : Bool :=
  match lastIndexOf '@' authority with
  | none => authority.isEmpty
  | some i =>
    (authority.drop (i + 1)).isEmpty &&
    (let userinfo := authority.take i
     validUserinfo userinfo &&
     (if userinfo.contains ':' then
        validEscapes (userinfo.takeWhile (· != ':')) &&
          validEscapes ((userinfo.dropWhile (· != ':')).drop 1)
      else validEscapes userinfo))

/-- Whether `parse(rawURL, false)` of net/url returns no error and a URL whose
`Scheme` and `Host` are both empty. -/
def parseIsRelative (rawURL : List Char) : Bool :=
  if stringContainsCTLByte rawURL then false
  else if rawURL = ['*'] then true
  else
    match getScheme rawURL with
    | none => false
    | some (scheme, rest) =>
      if !scheme.isEmpty then false
      else
        let rest := rest.takeWhile (· != '?')
        if !(List.isPrefixOf ['/'] rest) && (rest.takeWhile (· != '/')).contains ':' then false
        else if List.isPrefixOf ['/', '/'] rest && !(List.isPrefixOf ['/', '/', '/'] rest) then
          let authority := (rest.drop 2).takeWhile (· != '/')
          let rest := (rest.drop 2).dropWhile (· != '/')
          authorityHasNoHost authority && validEscapes rest
        else validEscapes rest

/-- The test `err == nil` and `u.Scheme == ""` and `u.Host == ""` that
`http.Redirect` makes on `url.Parse(url)`: the part before the first `#` is
parsed, the fragment after it is unescaped. -/
def parsesAsRelative (rawURL : String) : Bool :=
  let u := rawURL.toList.takeWhile (· != '#')
  let frag := (rawURL.toList.dropWhile (· != '#')).drop 1
  parseIsRelative u && validEscapes frag

/-- The first result of `path.Split`: the path up to and with its last slash. -/
def pathSplitDir (path : List Char) : List Char :=
  match lastIndexOf '/' path with
  | some i => path.take (i + 1)
  | none => []

/-- The backtracking of `path.Clean` on a `..` element, on the reversed buffer:
`last` is the byte just dropped; bytes are dropped while the buffer is longer
than `dotdot` and the byte just dropped is not a slash. -/
def cleanBacktrack (dotdot : Nat) : Char → List Char → List Char
  | _, [] => []
  | last, c :: rev =>
    if (c :: rev).length > dotdot && last != '/' then cleanBacktrack dotdot c rev else c :: rev

/-- Where the read index of `path.Clean` stands: at the start of a path element,
inside a real element that is being copied, or on the second dot of a `..`. -/
inductive CleanAt where
  | elementStart
  | insideElement
  | secondDot
deriving DecidableEq, Repr

/-- The loop of `path.Clean`, one byte of the path at a time: `out` is the
buffer written so far and `dotdot` the index where `..` must stop. -/
def cleanLoop (rooted : Bool) : CleanAt → List Char → List Char → Nat → List Char
  | _, [], out, _ => out
  | CleanAt.secondDot, _ :: rest, out, dotdot =>
    cleanLoop rooted CleanAt.elementStart rest out dotdot
  | CleanAt.insideElement, c :: rest, out, dotdot =>
    if c = '/' then cleanLoop rooted CleanAt.elementStart rest out dotdot
    else cleanLoop rooted CleanAt.insideElement rest (out ++ [c]) dotdot
  | CleanAt.elementStart, c :: rest, out, dotdot =>
    if c = '/' then cleanLoop rooted CleanAt.elementStart rest out dotdot
    else if c = '.' && (rest.isEmpty || rest.head? == some '/') then
      cleanLoop rooted CleanAt.elementStart rest out dotdot
    else if c = '.' && rest.head? == some '.' &&
        (rest.tail.isEmpty || rest.tail.head? == some '/') then
      if out.length > dotdot then
        match out.reverse with
        | [] => cleanLoop rooted CleanAt.secondDot rest out dotdot
        | last :: rev =>
          cleanLoop rooted CleanAt.secondDot rest (cleanBacktrack dotdot last rev).reverse dotdot
      else if !rooted then
        let out := (if out.length > 0 then out ++ ['/'] else out) ++ ['.', '.']
        cleanLoop rooted CleanAt.secondDot rest out out.length
      else cleanLoop rooted CleanAt.secondDot rest out dotdot
    else
      let out := if (rooted && out.length != 1) || (!rooted && out.length != 0)
        then out ++ ['/'] else out
      cleanLoop rooted CleanAt.insideElement rest (out ++ [c]) dotdot

/-- The function `path.Clean` of the Go standard library. -/
def pathClean (path : List Char) : List Char :=
  match path with
  | [] => ['.']
  | c :: rest =>
    let out := if c = '/' then cleanLoop true CleanAt.elementStart rest ['/'] 1
      else cleanLoop false CleanAt.elementStart path [] 0
    if out.isEmpty then ['.'] else out

/-- The function `hexEscapeNonASCII` of net/http: every byte from 0x80 on becomes
`%` and its two lower-case hex digits. -/
def hexEscapeNonASCII (s : List Char) : List Char :=
  s.flatMap (fun c =>
    if c.toNat < 128 then [c]
    else (String.utf8EncodeChar c).flatMap (fun b =>
      ['%', Nat.digitChar (b.toNat / 16), Nat.digitChar (b.toNat % 16)]))

/-- The test `strings.HasSuffix(s, "/")`. -/
def endsWithSlash (s : List Char) : Bool := s.getLast? == some '/'

/-- The value `http.Redirect(w, r, url, code)` sets as the `Location` header,
for `requestPath` the `r.URL.Path` of the request. -/
def redirectLocation (url : String) (requestPath : String) : String :=
  let url :=
    if parsesAsRelative url then
      let oldpath := if requestPath = "" then ['/'] else requestPath.toList
      let url := if url.toList.head? != some '/' then pathSplitDir oldpath ++ url.toList
        else url.toList
      let query := url.dropWhile (· != '?')
      let url := url.takeWhile (· != '?')
      let trailing := endsWithSlash url
      let url := pathClean url
      let url := if trailing && !endsWithSlash url then url ++ ['/'] else url
      url ++ query
    else url.toList
  String.mk (hexEscapeNonASCII url)

/-- Every byte of the string is below 0x80. -/
def isASCII (s : String) : Bool := s.toList.all (fun c => c.toNat < 128)

/-- The string begins with a URL scheme: `getScheme`, on the part before the
first `#`, finds a scheme that is not empty. -/
def hasScheme (url : String) : Bool :=
  match getScheme (url.toList.takeWhile (· != '#')) with
  | some (scheme, _) => !scheme.isEmpty
  | none => false

/-! ## Observations on a list of calls -/

/-- What the calls write to response sinks: for each `http.Redirect`, the sink,
the `Location` header net/http sets there, and the status. -/
def responseWrites : List Call → List (ResponseWriter × String × Nat)
  | [] => []
  | Call.Redirect w r url code :: cs =>
    (w, redirectLocation url r.URL.Path, code) :: responseWrites cs
  | Call.print _ :: cs => responseWrites cs
  | Call.ServeHTTP _ _ _ :: cs => responseWrites cs

/-- The invocations of caller-supplied handlers among the calls, each with the
handler, the response sink and the request it was given. -/
def fallbackCalls : List Call → List (Handler × ResponseWriter × Request)
  | [] => []
  | Call.Redirect _ _ _ _ :: cs => fallbackCalls cs
  | Call.print _ :: cs => fallbackCalls cs
  | Call.ServeHTTP h w r :: cs => (h, w, r) :: fallbackCalls cs

/-- What the calls themselves write to standard error, in order. -/
def stderrOutput : List Call → List String
  | [] => []
  | Call.Redirect _ _ _ _ :: cs => stderrOutput cs
  | Call.print s :: cs => s :: stderrOutput cs
  | Call.ServeHTTP _ _ _ :: cs => stderrOutput cs

/-! ## Concrete inputs -/

/-- The YAML document of the spec's example, as bytes. -/
def yamlExample : List UInt8 :=
  "- path: /go\n  url: https://golang.org".toUTF8.data.toList

/-- The JSON document of the spec's example, as bytes. -/
def jsonExample : List UInt8 :=
  "[\x7b\"path\":\"/go\",\"url\":\"https://golang.org\"\x7d]".toUTF8.data.toList

/-- The truncated JSON document of the spec's example, as bytes. -/
def jsonTruncated : List UInt8 :=
  "[\x7b\"path\":".toUTF8.data.toList

/-- The entries both example documents stand for. -/
def goEntries : List RedirectionMap := [⟨"/go", "https://golang.org"⟩]

/-- A decoder for concrete evaluation: it decodes the one document `doc` to
`entries` and rejects every other payload with the diagnostic `msg`. -/
def decodeOnly (doc : List UInt8) (entries : List RedirectionMap) (msg : String) : Unmarshal :=
  fun data => if data = doc then (entries, none) else ([], some ⟨msg⟩)

/-- A GET request for `/go`. -/
def getGo : Request := ⟨"GET", ⟨"/go", ""⟩, [], "localhost"⟩

/-- A POST request for `/go` with a query and a header. -/
def postGo : Request := ⟨"POST", ⟨"/go", "x=1"⟩, [("Accept", ["*/*"])], "example.org"⟩

/-- A GET request for `/a/b`. -/
def getAB : Request := ⟨"GET", ⟨"/a/b", ""⟩, [], "localhost"⟩

/-- A GET request for `/other`. -/
def getOther : Request := ⟨"GET", ⟨"/other", ""⟩, [], "localhost"⟩

/-! ## Specification-side definitions -/

/-- In the words of the spec: the url of the last entry of `es` whose path is
`p`, or `none` when no entry of `es` has path `p`. -/
def lastUrlFor (es : List RedirectionMap) (p : String) : Option String :=
  ((es.filter (fun e => e.Path = p)).getLast?).map (fun e => e.Url)

/-! ## Lemmas on the map operations -/

theorem GoMap.get?_eq_lookup (m : GoMap) (k : String) :
    m.get? k = m.bindings.lookup k := by
  unfold GoMap.get? GoMap.index
  cases h : m.bindings.lookup k <;> rfl

theorem GoMap.index_eq_of_get? (m : GoMap) (k : String) :
    m.index k = match m.get? k with
      | some v => (v, true)
      | none => ("", false) := by
  rw [GoMap.get?_eq_lookup]
  unfold GoMap.index
  cases h : m.bindings.lookup k <;> rfl

theorem lookup_filter_ne (l : List (String × String)) (k p : String) (h : p ≠ k) :
    (l.filter (fun b => b.1 != k)).lookup p = l.lookup p := by
  induction l with
  | nil => rfl
  | cons b l ih =>
    obtain ⟨a, v⟩ := b
    by_cases hak : a = k
    · subst hak
      have hpa : (p == a) = false := by simpa using h
      simp [List.filter_cons, List.lookup_cons, hpa, ih]
    · have hne : (a != k) = true := by simpa using hak
      simp only [List.filter_cons, hne, if_true, List.lookup_cons, ih]

theorem GoMap.get?_make (p : String) : GoMap.make.get? p = none := by
  rw [GoMap.get?_eq_lookup]; rfl

theorem GoMap.get?_assign (m : GoMap) (k v p : String) :
    (m.assign k v).get? p = if p = k then some v else m.get? p := by
  rw [GoMap.get?_eq_lookup, GoMap.get?_eq_lookup]
  unfold GoMap.assign
  by_cases h : p = k
  · subst h; simp [List.lookup_cons]
  · have hpk : (p == k) = false := by simpa using h
    simp only [List.lookup_cons, hpk, if_neg h]
    exact lookup_filter_ne m.bindings k p h

theorem lastUrlFor_nil (p : String) : lastUrlFor [] p = none := rfl

theorem lastUrlFor_append_singleton (es : List RedirectionMap) (e : RedirectionMap)
    (p : String) :
    lastUrlFor (es ++ [e]) p = if e.Path = p then some e.Url else lastUrlFor es p := by
  unfold lastUrlFor
  by_cases h : e.Path = p
  · simp [List.filter_append, List.filter_cons, h]
  · simp [List.filter_append, List.filter_cons, h]

theorem get?_foldl_assign (es : List RedirectionMap) (m : GoMap) (p : String) :
    (es.foldl (fun m entry => m.assign entry.Path entry.Url) m).get? p
      = match lastUrlFor es p with
        | some u => some u
        | none => m.get? p := by
  induction es using List.reverseRecOn with
  | nil => simp [lastUrlFor_nil]
  | append_singleton es e ih =>
    rw [List.foldl_append, List.foldl_cons, List.foldl_nil, GoMap.get?_assign,
      lastUrlFor_append_singleton]
    by_cases h : e.Path = p
    · simp [h]
    · have h2 : ¬ p = e.Path := fun x => h x.symm
      simp only [if_neg h, if_neg h2]
      exact ih

theorem get?_buildMap (es : List RedirectionMap) (p : String) :
    (buildMap es).get? p = lastUrlFor es p := by
  unfold buildMap
  rw [get?_foldl_assign, GoMap.get?_make]
  cases lastUrlFor es p <;> rfl

theorem lastUrlFor_eq_none_iff (es : List RedirectionMap) (p : String) :
    lastUrlFor es p = none ↔ ∀ e ∈ es, e.Path ≠ p := by
  unfold lastUrlFor
  simp [List.getLast?_eq_none_iff, List.filter_eq_nil_iff]

theorem lastUrlFor_isSome_of_mem (es : List RedirectionMap) (p : String)
    (h : ∃ e ∈ es, e.Path = p) : ∃ u, lastUrlFor es p = some u := by
  cases hl : lastUrlFor es p with
  | some u => exact ⟨u, rfl⟩
  | none =>
    obtain ⟨e, he, hp⟩ := h
    exact absurd hp ((lastUrlFor_eq_none_iff es p).1 hl e he)

theorem index_buildMap (es : List RedirectionMap) (p : String) :
    (buildMap es).index p = match lastUrlFor es p with
      | some u => (u, true)
      | none => ("", false) := by
  rw [GoMap.index_eq_of_get?, get?_buildMap]

/-! ## Lemmas on dispatch -/

theorem ServeHTTP_hit (m : GoMap) (fb : Handler) (w : ResponseWriter) (r : Request)
    (u : String) (h : m.index r.URL.Path = (u, true)) :
    (MapHandler m fb).ServeHTTP w r
      = ⟨[Call.Redirect w r u StatusPermanentRedirect], MapHandler m fb⟩ := by
  unfold HandlerFunc.ServeHTTP MapHandler
  simp only [h]

theorem ServeHTTP_miss (m : GoMap) (fb : Handler) (w : ResponseWriter) (r : Request)
    (h : (m.index r.URL.Path).2 = false) :
    (MapHandler m fb).ServeHTTP w r
      = ⟨[Call.print "Using fallback handler...", Call.ServeHTTP fb w r], MapHandler m fb⟩ := by
  unfold HandlerFunc.ServeHTTP MapHandler
  cases hi : m.index r.URL.Path with
  | mk v b =>
    rw [hi] at h
    simp only at h
    subst h
    rfl

theorem ServeHTTP_closure (h : HandlerFunc) (w : ResponseWriter) (r : Request) :
    (h.ServeHTTP w r).closure = h := by
  unfold HandlerFunc.ServeHTTP
  cases hi : h.pathsToUrls.index r.URL.Path with
  | mk v b => cases b <;> rfl

theorem serveAll_closure (h : HandlerFunc) (reqs : List (ResponseWriter × Request)) :
    (serveAll h reqs).closure = h := by
  induction reqs generalizing h with
  | nil => rfl
  | cons q rest ih =>
    obtain ⟨w, r⟩ := q
    simp only [serveAll]
    rw [ih, ServeHTTP_closure]

theorem ServeHTTP_buildMap (es : List RedirectionMap) (fb : Handler) (w : ResponseWriter)
    (r : Request) :
    ((MapHandler (buildMap es) fb).ServeHTTP w r).calls
      = match lastUrlFor es r.URL.Path with
        | some u => [Call.Redirect w r u StatusPermanentRedirect]
        | none => [Call.print "Using fallback handler...", Call.ServeHTTP fb w r] := by
  have hi := index_buildMap es r.URL.Path
  cases hl : lastUrlFor es r.URL.Path with
  | some u =>
    rw [hl] at hi
    rw [ServeHTTP_hit _ _ _ _ u hi]
  | none =>
    rw [hl] at hi
    rw [ServeHTTP_miss _ _ _ _ (by rw [hi])]

/-! ## Lemmas on the redirect location -/

theorem hexEscapeNonASCII_of_ascii (s : List Char)
    (h : s.all (fun c => c.toNat < 128) = true) : hexEscapeNonASCII s = s := by
  unfold hexEscapeNonASCII
  induction s with
  | nil => rfl
  | cons c cs ih =>
    simp only [List.all_cons, Bool.and_eq_true, decide_eq_true_eq] at h
    rw [List.flatMap_cons, if_pos h.1, ih h.2]
    rfl

theorem redirectLocation_of_absolute (url requestPath : String)
    (hascii : isASCII url = true) (habs : parsesAsRelative url = false) :
    redirectLocation url requestPath = url := by
  unfold redirectLocation
  simp only [habs, Bool.false_eq_true, if_false]
  rw [hexEscapeNonASCII_of_ascii url.toList hascii]
  rfl

theorem parseIsRelative_of_scheme (l scheme rest : List Char)
    (hg : getScheme l = some (scheme, rest)) (hs : scheme.isEmpty = false) :
    parseIsRelative l = false := by
  unfold parseIsRelative
  by_cases hctl : stringContainsCTLByte l = true
  · rw [if_pos hctl]
  · rw [if_neg hctl]
    by_cases hstar : l = ['*']
    · exfalso
      rw [hstar] at hg
      have h2 : getScheme ['*'] = some ([], ['*']) := by decide
      rw [h2] at hg
      injection hg with hg
      injection hg with h3 _
      rw [← h3] at hs
      exact absurd hs (by decide)
    · rw [if_neg hstar, hg]
      simp only [hs, Bool.not_false, if_true]

theorem parsesAsRelative_of_hasScheme (url : String) (h : hasScheme url = true) :
    parsesAsRelative url = false := by
  unfold hasScheme at h
  unfold parsesAsRelative
  cases hg : getScheme (url.toList.takeWhile (· != '#')) with
  | none => rw [hg] at h; exact absurd h (by decide)
  | some sr =>
    obtain ⟨scheme, rest⟩ := sr
    rw [hg] at h
    have hs : scheme.isEmpty = false := by
      cases hh : scheme.isEmpty with
      | false => rfl
      | true => simp [hh] at h
    simp only [parseIsRelative_of_scheme _ scheme rest hg hs, Bool.false_and]

/-! ## The claims -/

/-- C1 as stated fails: with the mapping `/a/b -> golang.org`, a GET request for
`/a/b` hits the key, and `http.Redirect` takes the target `golang.org` for a
relative reference: it writes status 308 with `Location: /a/golang.org`, which
is not the mapped value.  Likewise the mapped value `https://example.com/é` is
written as `https://example.com/%c3%a9`.  So it is not true that for every
mapping and every request with a non-empty path that is a key, the `Location`
written equals the mapped value exactly. -/
theorem MapHandler_location_exact_counterexample :
    GoMap.index ⟨[("/a/b", "golang.org")]⟩ getAB.URL.Path = ("golang.org", true) ∧
    responseWrites ((MapHandler ⟨[("/a/b", "golang.org")]⟩ ⟨0⟩).ServeHTTP ⟨1⟩ getAB).calls
      = [(⟨1⟩, "/a/golang.org", 308)] ∧
    responseWrites
        ((MapHandler ⟨[("/a/b", "https://example.com/é")]⟩ ⟨0⟩).ServeHTTP ⟨1⟩ getAB).calls
      = [(⟨1⟩, "https://example.com/%c3%a9", 308)] ∧
    ¬ (∀ (m : GoMap) (fallback : Handler) (w : ResponseWriter) (r : Request) (u : String),
        r.URL.Path ≠ "" → m.index r.URL.Path = (u, true) →
        responseWrites ((MapHandler m fallback).ServeHTTP w r).calls = [(w, u, 308)]) := by
  refine ⟨by decide, by decide, by decide, fun hall => ?_⟩
  have h := hall ⟨[("/a/b", "golang.org")]⟩ ⟨0⟩ ⟨1⟩ getAB "golang.org" (by decide) (by decide)
  revert h
  decide

/-- C1 amended: for every mapping `m`, fallback and request whose path `p`
(non-empty or not) is a key of `m` with value `u` (the index `m[p]` gives
`u, true`), the handler returned by `MapHandler m fallback` makes exactly one
call, `http.Redirect` on the given response sink and request with target `u`
and status 308, and does not invoke the fallback handler.  The response written
has status 308 and the `Location` header that net/http derives from `u` and `p`
(`redirectLocation`).  That header equals `u` exactly whenever `u` is ASCII only
and is not parsed as a relative reference (a URL without scheme and host); this
is so in particular whenever `u` begins with a scheme, as `https://...` does. -/
theorem MapHandler_redirects_present_path (m : GoMap) (fallback : Handler)
    (w : ResponseWriter) (r : Request) (u : String)
    (hkey : m.index r.URL.Path = (u, true)) :
    ((MapHandler m fallback).ServeHTTP w r).calls = [Call.Redirect w r u 308] ∧
    responseWrites ((MapHandler m fallback).ServeHTTP w r).calls
      = [(w, redirectLocation u r.URL.Path, 308)] ∧
    (isASCII u = true → parsesAsRelative u = false →
      responseWrites ((MapHandler m fallback).ServeHTTP w r).calls = [(w, u, 308)]) ∧
    (hasScheme u = true → parsesAsRelative u = false) ∧
    fallbackCalls ((MapHandler m fallback).ServeHTTP w r).calls = [] := by
  rw [ServeHTTP_hit m fallback w r u hkey]
  refine ⟨rfl, rfl, fun hascii habs => ?_, parsesAsRelative_of_hasScheme u, rfl⟩
  simp only [responseWrites, StatusPermanentRedirect,
    redirectLocation_of_absolute u r.URL.Path hascii habs]

/-- Witness for C1: the map with the one key `/go` and the ASCII target
`https://golang.org`, which begins with a scheme; a GET request for `/go` is
answered with status 308 and `Location: https://golang.org`. -/
theorem MapHandler_redirects_present_path_witness :
    ((MapHandler ⟨[("/go", "https://golang.org")]⟩ ⟨0⟩).ServeHTTP ⟨1⟩ getGo).calls
        = [Call.Redirect ⟨1⟩ getGo "https://golang.org" 308] ∧
    responseWrites ((MapHandler ⟨[("/go", "https://golang.org")]⟩ ⟨0⟩).ServeHTTP ⟨1⟩ getGo).calls
        = [(⟨1⟩, "https://golang.org", 308)] :=
  ⟨(MapHandler_redirects_present_path ⟨[("/go", "https://golang.org")]⟩ ⟨0⟩ ⟨1⟩ getGo
      "https://golang.org" (by decide)).1,
    (MapHandler_redirects_present_path ⟨[("/go", "https://golang.org")]⟩ ⟨0⟩ ⟨1⟩ getGo
      "https://golang.org" (by decide)).2.2.1 (by decide)
      ((MapHandler_redirects_present_path ⟨[("/go", "https://golang.org")]⟩ ⟨0⟩ ⟨1⟩ getGo
        "https://golang.org" (by decide)).2.2.2.1 (by decide))⟩

/-- C2: for every mapping `m`, fallback and request whose path is not a key of
`m` (the index `m[p]` gives `ok = false`), the handler returned by
`MapHandler m fallback` invokes `fallback.ServeHTTP` exactly once, with the very
response sink and request it received, and writes nothing (no status, no
header) to the response sink itself; the only other call it makes is the
builtin `print`, which does not touch the sink. -/
theorem MapHandler_delegates_absent_path (m : GoMap) (fallback : Handler)
    (w : ResponseWriter) (r : Request) (habsent : (m.index r.URL.Path).2 = false) :
    fallbackCalls ((MapHandler m fallback).ServeHTTP w r).calls = [(fallback, w, r)] ∧
    responseWrites ((MapHandler m fallback).ServeHTTP w r).calls = [] ∧
    ((MapHandler m fallback).ServeHTTP w r).calls
      = [Call.print "Using fallback handler...", Call.ServeHTTP fallback w r] := by
  rw [ServeHTTP_miss m fallback w r habsent]
  exact ⟨rfl, rfl, rfl⟩

/-- Witness for C2: the map with the one key `/go`, a POST request for `/other`. -/
theorem MapHandler_delegates_absent_path_witness :
    fallbackCalls ((MapHandler ⟨[("/go", "https://golang.org")]⟩ ⟨0⟩).ServeHTTP ⟨1⟩
        ⟨"POST", ⟨"/other", "x=1"⟩, [("Accept", ["*/*"])], "localhost"⟩).calls
      = [(⟨0⟩, ⟨1⟩, ⟨"POST", ⟨"/other", "x=1"⟩, [("Accept", ["*/*"])], "localhost"⟩)] :=
  (MapHandler_delegates_absent_path ⟨[("/go", "https://golang.org")]⟩ ⟨0⟩ ⟨1⟩
    ⟨"POST", ⟨"/other", "x=1"⟩, [("Accept", ["*/*"])], "localhost"⟩ (by decide)).1

/-- C3: for every sequence of entries `es` and every string `p`, the index of `p`
in `buildMap es` gives the url of the last entry of `es` whose path is `p` (with
`ok = true`), and is absent (`ok = false`) when no entry of `es` has path `p`;
the empty sequence gives the empty map, the one entry `/a -> https://x` gives the
map with that one binding, and of two entries for `/a` the later one wins. -/
theorem buildMap_last_write_wins :
    (∀ (es : List RedirectionMap) (p : String),
      (buildMap es).index p = match lastUrlFor es p with
        | some u => (u, true)
        | none => ("", false)) ∧
    (∀ (es : List RedirectionMap) (p : String),
      (lastUrlFor es p = none ↔ ∀ e ∈ es, e.Path ≠ p)) ∧
    buildMap [] = GoMap.make ∧
    (∀ p : String, ((buildMap []).index p).2 = false) ∧
    buildMap [⟨"/a", "https://x"⟩] = ⟨[("/a", "https://x")]⟩ ∧
    buildMap [⟨"/a", "https://one"⟩, ⟨"/a", "https://two"⟩] = ⟨[("/a", "https://two")]⟩ := by
  refine ⟨index_buildMap, lastUrlFor_eq_none_iff, rfl, fun p => rfl, by decide, by decide⟩

/-- C4: for every payload and fallback, `YAMLHandler` returns an error exactly
when `parseYAML` returns one on that payload; the error returned is then the
deserializer's own and the handler is nil; otherwise a handler (not nil) is
returned with a nil error.  The same holds of `JSONHandler` and `parseJSON`. -/
theorem handlers_fail_only_with_deserializer_error (yamlUnmarshal jsonUnmarshal : Unmarshal)
    (data : List UInt8) (fallback : Handler) :
    (((YAMLHandler yamlUnmarshal data fallback).2 ≠ none
        ↔ (parseYAML yamlUnmarshal data).2 ≠ none) ∧
      (∀ e, (parseYAML yamlUnmarshal data).2 = some e →
        YAMLHandler yamlUnmarshal data fallback = (none, some e)) ∧
      ((parseYAML yamlUnmarshal data).2 = none →
        ∃ h, YAMLHandler yamlUnmarshal data fallback = (some h, none))) ∧
    (((JSONHandler jsonUnmarshal data fallback).2 ≠ none
        ↔ (parseJSON jsonUnmarshal data).2 ≠ none) ∧
      (∀ e, (parseJSON jsonUnmarshal data).2 = some e →
        JSONHandler jsonUnmarshal data fallback = (none, some e)) ∧
      ((parseJSON jsonUnmarshal data).2 = none →
        ∃ h, JSONHandler jsonUnmarshal data fallback = (some h, none))) := by
  constructor
  · unfold YAMLHandler
    cases hp : parseYAML yamlUnmarshal data with
    | mk t err =>
      cases err with
      | none => simp
      | some e => simp
  · unfold JSONHandler
    cases hp : parseJSON jsonUnmarshal data with
    | mk t err =>
      cases err with
      | none => simp
      | some e => simp

/-- Witness for C4: on the truncated JSON document a decoder that rejects it makes
`JSONHandler` return its error and no handler. -/
theorem handlers_fail_only_with_deserializer_error_witness :
    JSONHandler (decodeOnly jsonExample goEntries "unexpected end of JSON input")
        jsonTruncated ⟨0⟩
      = (none, some ⟨"unexpected end of JSON input"⟩) :=
  (handlers_fail_only_with_deserializer_error
    (decodeOnly yamlExample goEntries "yaml: unmarshal errors")
    (decodeOnly jsonExample goEntries "unexpected end of JSON input")
    jsonTruncated ⟨0⟩).2.2.1 ⟨"unexpected end of JSON input"⟩ (by decide)

/-- C5: when `parseYAML` decodes the payload without error into the entries `es`,
`YAMLHandler` returns a handler and a nil error, and that handler answers every
request whose path is the path of some entry of `es` with `http.Redirect`,
status 308, to the url of the last such entry, and hands every other request to
the fallback (after the `print` of the fallback branch); in particular, when the
payload is the example document and decodes to the one entry
`/go -> https://golang.org`, a request for `/go` is redirected to
`https://golang.org`. -/
theorem YAMLHandler_redirects_last_entry (yamlUnmarshal : Unmarshal) (payload : List UInt8)
    (fallback : Handler) (es : List RedirectionMap)
    (hparse : parseYAML yamlUnmarshal payload = (es, none)) :
    ∃ h, YAMLHandler yamlUnmarshal payload fallback = (some h, none) ∧
      (∀ (w : ResponseWriter) (r : Request), (∃ e ∈ es, e.Path = r.URL.Path) →
        ∃ u, lastUrlFor es r.URL.Path = some u ∧
          (h.ServeHTTP w r).calls = [Call.Redirect w r u 308]) ∧
      (∀ (w : ResponseWriter) (r : Request), (∀ e ∈ es, e.Path ≠ r.URL.Path) →
        (h.ServeHTTP w r).calls
          = [Call.print "Using fallback handler...", Call.ServeHTTP fallback w r]) ∧
      (payload = yamlExample → es = goEntries →
        ∀ (w : ResponseWriter) (r : Request), r.URL.Path = "/go" →
          (h.ServeHTTP w r).calls = [Call.Redirect w r "https://golang.org" 308]) := by
  refine ⟨MapHandler (buildMap es) fallback, ?_, ?_, ?_, ?_⟩
  · unfold YAMLHandler
    rw [hparse]
  · intro w r hex
    obtain ⟨u, hu⟩ := lastUrlFor_isSome_of_mem es r.URL.Path hex
    refine ⟨u, hu, ?_⟩
    rw [ServeHTTP_buildMap, hu]
    rfl
  · intro w r hall
    rw [ServeHTTP_buildMap, (lastUrlFor_eq_none_iff es r.URL.Path).2 hall]
  · intro _ hes w r hr
    subst hes
    rw [ServeHTTP_buildMap, hr]
    rfl

/-- Witness for C5: the example YAML document, decoded to its one entry, and a GET
request for `/go`. -/
theorem YAMLHandler_redirects_last_entry_witness :
    ∃ h, YAMLHandler (decodeOnly yamlExample goEntries "yaml: unmarshal errors")
        yamlExample ⟨0⟩ = (some h, none) ∧
      (h.ServeHTTP ⟨1⟩ getGo).calls = [Call.Redirect ⟨1⟩ getGo "https://golang.org" 308] := by
  obtain ⟨h, hh, _, _, hgo⟩ := YAMLHandler_redirects_last_entry
    (decodeOnly yamlExample goEntries "yaml: unmarshal errors") yamlExample ⟨0⟩ goEntries
    (by decide)
  exact ⟨h, hh, hgo rfl rfl ⟨1⟩ getGo rfl⟩

/-- C6: when `parseJSON` on the JSON payload and `parseYAML` on the YAML payload
both succeed with the same entries, `JSONHandler` and `YAMLHandler` (with the same
fallback) both return a handler and a nil error, and the two handlers do the same
on every response sink and request: the same calls with the same arguments (the
same redirect with the same status and target, or the same fallback invocation)
and the same closure afterwards. -/
theorem JSONHandler_behaves_as_YAMLHandler (jsonUnmarshal yamlUnmarshal : Unmarshal)
    (j y : List UInt8) (fallback : Handler) (es : List RedirectionMap)
    (hj : parseJSON jsonUnmarshal j = (es, none))
    (hy : parseYAML yamlUnmarshal y = (es, none)) :
    ∃ hJ hY, JSONHandler jsonUnmarshal j fallback = (some hJ, none) ∧
      YAMLHandler yamlUnmarshal y fallback = (some hY, none) ∧
      ∀ (w : ResponseWriter) (r : Request), hJ.ServeHTTP w r = hY.ServeHTTP w r := by
  refine ⟨MapHandler (buildMap es) fallback, MapHandler (buildMap es) fallback, ?_, ?_, ?_⟩
  · unfold JSONHandler
    rw [hj]
  · unfold YAMLHandler
    rw [hy]
  · intro w r
    rfl

/-- Witness for C6: the two example documents of the spec, each decoded to the one
entry `/go -> https://golang.org`. -/
theorem JSONHandler_behaves_as_YAMLHandler_witness :
    ∃ hJ hY,
      JSONHandler (decodeOnly jsonExample goEntries "unexpected end of JSON input")
        jsonExample ⟨0⟩ = (some hJ, none) ∧
      YAMLHandler (decodeOnly yamlExample goEntries "yaml: unmarshal errors")
        yamlExample ⟨0⟩ = (some hY, none) ∧
      ∀ (w : ResponseWriter) (r : Request), hJ.ServeHTTP w r = hY.ServeHTTP w r :=
  JSONHandler_behaves_as_YAMLHandler
    (decodeOnly jsonExample goEntries "unexpected end of JSON input")
    (decodeOnly yamlExample goEntries "yaml: unmarshal errors")
    jsonExample yamlExample ⟨0⟩ goEntries (by decide) (by decide)

/-- C7: `MapHandler` is a total function with no error result: for every mapping
and fallback it returns the handler that holds exactly that mapping and that
fallback; and the handler built on the empty mapping hands every request,
whatever its path, to the fallback (one `fallback.ServeHTTP` call with the given
sink and request, after the `print` of the fallback branch) and redirects
nothing. -/
theorem MapHandler_total_empty_map_delegates :
    (∀ (m : GoMap) (fallback : Handler),
      ∃ h : HandlerFunc, MapHandler m fallback = h ∧ h.pathsToUrls = m ∧ h.fallback = fallback) ∧
    (∀ (fallback : Handler) (w : ResponseWriter) (r : Request),
      ((MapHandler GoMap.make fallback).ServeHTTP w r).calls
          = [Call.print "Using fallback handler...", Call.ServeHTTP fallback w r] ∧
        fallbackCalls ((MapHandler GoMap.make fallback).ServeHTTP w r).calls
          = [(fallback, w, r)] ∧
        responseWrites ((MapHandler GoMap.make fallback).ServeHTTP w r).calls = []) := by
  refine ⟨fun m fallback => ⟨MapHandler m fallback, rfl, rfl, rfl⟩, fun fallback w r => ?_⟩
  rw [ServeHTTP_miss GoMap.make fallback w r rfl]
  exact ⟨rfl, rfl, rfl⟩

/-- C8 as stated fails: on the empty mapping a GET request for `/other` takes the
fallback branch, and there the handler itself writes the string
`Using fallback handler...` to standard error through the builtin `print`; so it
is not true that dispatch emits no output for every mapping, fallback and
request. -/
theorem dispatch_no_output_counterexample :
    stderrOutput ((MapHandler GoMap.make ⟨0⟩).ServeHTTP ⟨1⟩ getOther).calls
        = ["Using fallback handler..."] ∧
    ¬ (∀ (m : GoMap) (fallback : Handler) (w : ResponseWriter) (r : Request),
        stderrOutput ((MapHandler m fallback).ServeHTTP w r).calls = []) := by
  refine ⟨by decide, fun hall => ?_⟩
  have h := hall GoMap.make ⟨0⟩ ⟨1⟩ getOther
  revert h
  decide

/-- C8 amended: for every mapping, fallback and request, dispatch on the redirect
branch (path present) writes nothing to standard error, and dispatch on the
fallback branch (path absent) writes exactly the one string
`Using fallback handler...` to standard error, before it invokes the fallback;
every call the handler makes is the redirect on the given sink, that one `print`,
or the invocation of the fallback; and a handler returned by `YAMLHandler` or
`JSONHandler` is a `MapHandler` over `buildMap` of the decoded entries, so the
same holds of it, while on a deserialization error nothing but the error is
returned. -/
theorem dispatch_output_is_fallback_print_only :
    (∀ (m : GoMap) (fallback : Handler) (w : ResponseWriter) (r : Request),
      stderrOutput ((MapHandler m fallback).ServeHTTP w r).calls
          = (if (m.index r.URL.Path).2 = true then [] else ["Using fallback handler..."]) ∧
        (((MapHandler m fallback).ServeHTTP w r).calls
            = [Call.Redirect w r (m.index r.URL.Path).1 308] ∨
          ((MapHandler m fallback).ServeHTTP w r).calls
            = [Call.print "Using fallback handler...", Call.ServeHTTP fallback w r])) ∧
    (∀ (yamlUnmarshal : Unmarshal) (data : List UInt8) (fallback : Handler),
      YAMLHandler yamlUnmarshal data fallback
          = (some (MapHandler (buildMap (parseYAML yamlUnmarshal data).1) fallback), none) ∨
        ∃ e, YAMLHandler yamlUnmarshal data fallback = (none, some e)) ∧
    (∀ (jsonUnmarshal : Unmarshal) (data : List UInt8) (fallback : Handler),
      JSONHandler jsonUnmarshal data fallback
          = (some (MapHandler (buildMap (parseJSON jsonUnmarshal data).1) fallback), none) ∨
        ∃ e, JSONHandler jsonUnmarshal data fallback = (none, some e)) := by
  refine ⟨fun m fallback w r => ?_, fun U data fallback => ?_, fun U data fallback => ?_⟩
  · cases hi : m.index r.URL.Path with
    | mk v b =>
      cases b with
      | true =>
        rw [ServeHTTP_hit m fallback w r v hi]
        exact ⟨rfl, Or.inl rfl⟩
      | false =>
        rw [ServeHTTP_miss m fallback w r (by rw [hi])]
        exact ⟨rfl, Or.inr rfl⟩
  · unfold YAMLHandler
    cases hp : parseYAML U data with
    | mk t err =>
      cases err with
      | none => exact Or.inl rfl
      | some e => exact Or.inr ⟨e, rfl⟩
  · unfold JSONHandler
    cases hp : parseJSON U data with
    | mk t err =>
      cases err with
      | none => exact Or.inl rfl
      | some e => exact Or.inr ⟨e, rfl⟩

/-- C9: for every mapping, fallback, two response sinks and two requests with the
same path (whatever their method, query, headers and host), the handler takes
the same branch on both: either it redirects both, with the same status 308 and
the same redirect target, or it hands both to the fallback. -/
theorem dispatch_depends_on_path_only (m : GoMap) (fallback : Handler)
    (w1 w2 : ResponseWriter) (r1 r2 : Request) (hpath : r1.URL.Path = r2.URL.Path) :
    (∃ u, ((MapHandler m fallback).ServeHTTP w1 r1).calls = [Call.Redirect w1 r1 u 308] ∧
        ((MapHandler m fallback).ServeHTTP w2 r2).calls = [Call.Redirect w2 r2 u 308]) ∨
    (((MapHandler m fallback).ServeHTTP w1 r1).calls
        = [Call.print "Using fallback handler...", Call.ServeHTTP fallback w1 r1] ∧
      ((MapHandler m fallback).ServeHTTP w2 r2).calls
        = [Call.print "Using fallback handler...", Call.ServeHTTP fallback w2 r2]) := by
  cases hi : m.index r1.URL.Path with
  | mk v b =>
    have hi2 : m.index r2.URL.Path = (v, b) := by rw [← hpath]; exact hi
    cases b with
    | true =>
      left
      refine ⟨v, ?_, ?_⟩
      · rw [ServeHTTP_hit m fallback w1 r1 v hi]; rfl
      · rw [ServeHTTP_hit m fallback w2 r2 v hi2]; rfl
    | false =>
      right
      constructor
      · rw [ServeHTTP_miss m fallback w1 r1 (by rw [hi])]
      · rw [ServeHTTP_miss m fallback w2 r2 (by rw [hi2])]

/-- Witness for C9: a GET and a POST request for `/go`, differing in method,
query, headers and host, are both redirected to `https://golang.org` with
status 308. -/
theorem dispatch_depends_on_path_only_witness :
    (∃ u, ((MapHandler (buildMap goEntries) ⟨0⟩).ServeHTTP ⟨1⟩ getGo).calls
          = [Call.Redirect ⟨1⟩ getGo u 308] ∧
        ((MapHandler (buildMap goEntries) ⟨0⟩).ServeHTTP ⟨2⟩ postGo).calls
          = [Call.Redirect ⟨2⟩ postGo u 308]) ∨
    (((MapHandler (buildMap goEntries) ⟨0⟩).ServeHTTP ⟨1⟩ getGo).calls
        = [Call.print "Using fallback handler...", Call.ServeHTTP ⟨0⟩ ⟨1⟩ getGo] ∧
      ((MapHandler (buildMap goEntries) ⟨0⟩).ServeHTTP ⟨2⟩ postGo).calls
        = [Call.print "Using fallback handler...", Call.ServeHTTP ⟨0⟩ ⟨2⟩ postGo]) :=
  dispatch_depends_on_path_only (buildMap goEntries) ⟨0⟩ ⟨1⟩ ⟨2⟩ getGo postGo (by decide)

/-- C10: dispatch never changes the captured mapping: for every mapping `m`,
fallback and request, the handler returned by `MapHandler m fallback` still holds
`m` after the request, on the redirect and on the fallback branch alike; after
any sequence of requests it still holds `m`, every index into its mapping gives
what it gave before, and a further request is served as by the fresh handler. -/
theorem dispatch_leaves_mapping_unchanged :
    (∀ (m : GoMap) (fallback : Handler) (w : ResponseWriter) (r : Request),
      ((MapHandler m fallback).ServeHTTP w r).closure.pathsToUrls = m) ∧
    (∀ (m : GoMap) (fallback : Handler) (reqs : List (ResponseWriter × Request)),
      (serveAll (MapHandler m fallback) reqs).closure.pathsToUrls = m ∧
        (∀ p : String,
          (serveAll (MapHandler m fallback) reqs).closure.pathsToUrls.index p = m.index p) ∧
        (∀ (w : ResponseWriter) (r : Request),
          (serveAll (MapHandler m fallback) reqs).closure.ServeHTTP w r
            = (MapHandler m fallback).ServeHTTP w r)) := by
  refine ⟨fun m fallback w r => ?_, fun m fallback reqs => ?_⟩
  · rw [ServeHTTP_closure]; rfl
  · rw [serveAll_closure]
    exact ⟨rfl, fun p => rfl, fun w r => rfl⟩

end Urlshort
